import Mathlib

/-!
# havault-light: the KV store client (`client.go`, package `storage`)

A shallow embedding of the client: `New`, `doReq`, `Get`, `Set`, `Delete`
and `Ping`.  The Go standard library is the environment.  `encoding/json` is
modelled on JSON documents (`Doc`), with numbers decoded into `float64` by
correct rounding; request construction, the HTTP round trip and the digits the
encoder writes for a `float64` are the fields of the record `Platform`.  The
remote backend is state of type `σ`, threaded through every call.
-/

set_option autoImplicit false
set_option linter.dupNamespace false
set_option maxRecDepth 100000
set_option exponentiation.threshold 2000

namespace storage

/-! ## Numbers -/

/-- A JSON number literal, by its value `± mantissa * 10 ^ exponent`. -/
structure Number where
  neg : Bool
  mantissa : Nat
  exponent : Int
  deriving DecidableEq, Repr

/-- Auxiliary for `log2`: halve `n` at most `fuel` times. -/
def log2Fuel : Nat → Nat → Nat
  | 0, _ => 0
  | fuel + 1, n => if n < 2 then 0 else log2Fuel fuel (n / 2) + 1

/-- The position of the highest set bit of `n` (0 for `n < 2`). -/
def log2 (n : Nat) : Nat := log2Fuel n n

/-- The pairs `(m, e)` for which `m * 2 ^ e` is the magnitude of a finite
IEEE 754 binary64 number, each magnitude once: zero is `(0, 0)`; otherwise `m`
is odd and below `2 ^ 53`, `e` is at least `-1074` and `m * 2 ^ e` is below
`2 ^ 1024`. -/
def isFloat64 (m : Nat) (e : Int) : Bool :=
  (m == 0 && e == 0) ||
    (m % 2 == 1 && decide (m < 2 ^ 53) && decide (-1074 ≤ e) &&
      decide ((log2 m : Int) + e < 1024))

/-- Go type `float64`, finite values only: the number `± m * 2 ^ e`.  NaN and
the infinities are not JSON values; as inputs to the encoder they are
`Any.unsupported`. -/
structure Float64 where
  neg : Bool
  m : Nat
  e : Int
  canonical : isFloat64 m e = true
  deriving DecidableEq, Repr

/-- Remove the factors of two of a significand `m`, raising the exponent, so
that the pair is the one `isFloat64` expects; `fuel` bounds the number of
factors removed. -/
def normalize : Nat → Nat → Int → Nat × Int
  | 0, m, e => (m, e)
  | fuel + 1, m, e =>
    if m = 0 then (0, 0)
    else if m % 2 = 0 then normalize fuel (m / 2) (e + 1)
    else (m, e)

/-- The integer nearest to `n / d`, a tie going to the even one. -/
def roundHalfEven (n d : Nat) : Nat :=
  if 2 * (n % d) < d then n / d
  else if d < 2 * (n % d) then n / d + 1
  else if (n / d) % 2 = 0 then n / d
  else n / d + 1

/-- The `float64` nearest to `± num / den` (round to nearest, ties to even,
gradual underflow to the subnormals and to zero); `none` when the rounded
magnitude is `2 ^ 1024` or more. -/
def roundFloat64 (neg : Bool) (num den : Nat) : Option Float64 :=
  if num = 0 then some ⟨neg, 0, 0, rfl⟩
  else
    let k0 : Int := (log2 num : Int) - (log2 den : Int)
    let k : Int :=
      if (if 0 ≤ k0 then den * 2 ^ k0.toNat ≤ num else den ≤ num * 2 ^ (-k0).toNat) then k0
      else k0 - 1
    let E : Int := max (k - 52) (-1074)
    let M : Nat :=
      if 0 ≤ E then roundHalfEven num (den * 2 ^ E.toNat)
      else roundHalfEven (num * 2 ^ (-E).toNat) den
    let r := normalize 64 M E
    if hc : isFloat64 r.1 r.2 = true then some ⟨neg, r.1, r.2, hc⟩ else none

/-- Function `strconv.ParseFloat(s, 64)` on a JSON number literal: the nearest
`float64`, or `none` for the range error of a literal too large. -/
def strconv.ParseFloat (n : Number) : Option Float64 :=
  if 0 ≤ n.exponent then roundFloat64 n.neg (n.mantissa * 10 ^ n.exponent.toNat) 1
  else roundFloat64 n.neg n.mantissa (10 ^ (-n.exponent).toNat)

/-- A decimal literal with exactly the value of `f`.  It stands in the
examples for the digits `strconv` writes, which are the shortest that parse
back to `f`; for integral values below `10 ^ 21` the two agree. -/
def exactDecimal (f : Float64) : Number :=
  if 0 ≤ f.e then ⟨f.neg, f.m * 2 ^ f.e.toNat, 0⟩
  else ⟨f.neg, f.m * 5 ^ (-f.e).toNat, f.e⟩

/-- Go type `int64`. -/
structure Int64 where
  val : Int
  inRange : decide (-9223372036854775808 ≤ val ∧ val ≤ 9223372036854775807) = true
  deriving DecidableEq, Repr

/-! ## Values and documents -/

/-- Go value of static type `any`: the dynamic types `encoding/json` produces
when it decodes into an `any` (`nil`, `bool`, `float64`, `string`, `[]any` and
`map[string]any`) and, for the values a caller hands to `Set`, `int64` and
`unsupported`, a value the encoder rejects (NaN, an infinity, a channel, a
function).  Slices and maps are non-nil.  A map is an association list, read
with `index`; a key occurs once in it. -/
inductive Any where
  | nil : Any
  | bool (b : Bool) : Any
  | int64 (n : Int64) : Any
  | float64 (f : Float64) : Any
  | unsupported : Any
  | string (s : String) : Any
  | slice (xs : List Any) : Any
  | map (m : List (String × Any)) : Any

/-- A JSON document.  An object is the list of its members, each key once
(of a repeated key the decoder keeps the last member); the order of members
carries no meaning. -/
inductive Doc where
  | null : Doc
  | bool (b : Bool) : Doc
  | number (n : Number) : Doc
  | string (s : String) : Doc
  | array (xs : List Doc) : Doc
  | object (members : List (String × Doc)) : Doc

/-- Go type `map[string]any`, non-nil.  Where the client only reads a map (the
decoded response body) the nil map is `[]`, since reading a nil map yields
zero values; where it encodes one (the value of `Set`) the map is an
`Option Map` and `none` is the nil map. -/
abbrev Map := List (String × Any)

/-- A `map[string]any` stored in an `any`, as the JSON encoder sees it: a nil
map encodes as `null`, a non-nil map as an object. -/
def ofMap : Option Map → Any
  | none => Any.nil
  | some m => Any.map m

/-- Map index expression `m[k]` on a `map[string]any`: the value bound to
`k`, or the zero value of `any` (the nil interface) when `k` is absent. -/
def index (m : Map) (k : String) : Any :=
  match m.lookup k with
  | some v => v
  | none => Any.nil

/-- Type assertion `x.(map[string]any)` in its two-result form: `some d`
stands for `(d, true)` and `none` for `(nil, false)`. -/
def asMap : Any → Option Map
  | Any.map m => some m
  | _ => none

/-- Comparison `x != s` of an interface value with a string: two interface
values are equal only when their dynamic types agree and the values are
equal, so every non-string `x` (nil included) differs from `s`. -/
def neString : Any → String → Bool
  | Any.string t, s => t != s
  | _, _ => true

/-! ## Errors -/

/-- Go `error` values the client can return.  `ErrKeyNotFound` and
`ErrEngineUnsupported` are the two package-level sentinels; the `failedTo*`
constructors are the `fmt.Errorf("...: %w", err)` wrappers and
`unexpectedStatus` is `fmt.Errorf("unexpected response status '%d' received", code)`.
`EOF`, `SyntaxError` and `UnmarshalTypeError` are the decoder's errors,
`Unsupported` is the encoder's error for a value it rejects and `lib` is any
other error of the standard library. -/
inductive Error where
  | ErrKeyNotFound : Error
  | ErrEngineUnsupported : Error
  | EOF : Error
  | SyntaxError (msg : String) : Error
  | UnmarshalTypeError (value : String) : Error
  | Unsupported : Error
  | lib (msg : String) : Error
  | unexpectedStatus (code : Int) : Error
  | failedToEncode (cause : Error) : Error
  | failedToCreate (cause : Error) : Error
  | failedToRequest (cause : Error) : Error
  | failedToDecode (cause : Error) : Error
  deriving DecidableEq, Repr

/-- Method `Error()` of an error value: its message. -/
def Error.Error : Error → String
  | Error.ErrKeyNotFound => "key not found"
  | Error.ErrEngineUnsupported => "engine unsupported"
  | Error.EOF => "EOF"
  | Error.SyntaxError msg => msg
  | Error.UnmarshalTypeError value =>
    "json: cannot unmarshal " ++ value ++ " into Go value of type map[string]interface \x7b\x7d"
  | Error.Unsupported => "json: unsupported value"
  | Error.lib msg => msg
  | Error.unexpectedStatus code => "unexpected response status '" ++ toString code ++ "' received"
  | Error.failedToEncode cause => "failed to encode request body: " ++ cause.Error
  | Error.failedToCreate cause => "failed to create request: " ++ cause.Error
  | Error.failedToRequest cause => "failed to request: " ++ cause.Error
  | Error.failedToDecode cause => "failed to decode response body: " ++ cause.Error

/-! ## `encoding/json` -/

mutual
/-- The JSON document the encoder writes for a value: an `int64` in full, a
`float64` with the digits `format` gives, a slice as an array and a map as an
object; a value the encoder rejects is an error. -/
def Marshal (format : Float64 → Number) : Any → Except Error Doc
  | Any.nil => Except.ok Doc.null
  | Any.bool b => Except.ok (Doc.bool b)
  | Any.int64 n => Except.ok (Doc.number ⟨decide (n.val < 0), n.val.natAbs, 0⟩)
  | Any.float64 f => Except.ok (Doc.number (format f))
  | Any.unsupported => Except.error Error.Unsupported
  | Any.string s => Except.ok (Doc.string s)
  | Any.slice xs =>
    match MarshalList format xs with
    | Except.error err => Except.error err
    | Except.ok ds => Except.ok (Doc.array ds)
  | Any.map m =>
    match MarshalMembers format m with
    | Except.error err => Except.error err
    | Except.ok ds => Except.ok (Doc.object ds)
/-- The documents of the elements of a slice. -/
def MarshalList (format : Float64 → Number) : List Any → Except Error (List Doc)
  | [] => Except.ok []
  | x :: xs =>
    match Marshal format x with
    | Except.error err => Except.error err
    | Except.ok d =>
      match MarshalList format xs with
      | Except.error err => Except.error err
      | Except.ok ds => Except.ok (d :: ds)
/-- The members of the object of a map. -/
def MarshalMembers (format : Float64 → Number) :
    List (String × Any) → Except Error (List (String × Doc))
  | [] => Except.ok []
  | (k, x) :: xs =>
    match Marshal format x with
    | Except.error err => Except.error err
    | Except.ok d =>
      match MarshalMembers format xs with
      | Except.error err => Except.error err
      | Except.ok ds => Except.ok ((k, d) :: ds)
end

mutual
/-- The decoder's `valueInterface`: the Go value of a document decoded into an
`any`.  A number becomes the nearest `float64`; a number out of range is an
`UnmarshalTypeError` (whose `Value` reads `number` and the literal). -/
def valueInterface : Doc → Except Error Any
  | Doc.null => Except.ok Any.nil
  | Doc.bool b => Except.ok (Any.bool b)
  | Doc.number n =>
    match strconv.ParseFloat n with
    | none => Except.error (Error.UnmarshalTypeError "number")
    | some f => Except.ok (Any.float64 f)
  | Doc.string s => Except.ok (Any.string s)
  | Doc.array xs =>
    match arrayInterface xs with
    | Except.error err => Except.error err
    | Except.ok vs => Except.ok (Any.slice vs)
  | Doc.object ms =>
    match objectInterface ms with
    | Except.error err => Except.error err
    | Except.ok vs => Except.ok (Any.map vs)
/-- The decoder's `arrayInterface`: the elements of an array. -/
def arrayInterface : List Doc → Except Error (List Any)
  | [] => Except.ok []
  | x :: xs =>
    match valueInterface x with
    | Except.error err => Except.error err
    | Except.ok v =>
      match arrayInterface xs with
      | Except.error err => Except.error err
      | Except.ok vs => Except.ok (v :: vs)
/-- The decoder's `objectInterface`: the members of an object. -/
def objectInterface : List (String × Doc) → Except Error (List (String × Any))
  | [] => Except.ok []
  | (k, x) :: xs =>
    match valueInterface x with
    | Except.error err => Except.error err
    | Except.ok v =>
      match objectInterface xs with
      | Except.error err => Except.error err
      | Except.ok vs => Except.ok ((k, v) :: vs)
end

/-- Content of a request or response body, as a JSON decoder sees it: no
value at all (`empty`), bytes that are not JSON (`invalid`), or a stream whose
first JSON value is the document `v` (`json v`). -/
inductive Wire where
  | empty : Wire
  | invalid (raw : String) : Wire
  | json (v : Doc) : Wire

/-- Call `json.NewEncoder(&b).Encode(body)`: the body holding the document of
`body` (`null` for nil), or the encoder's error. -/
def Encode (format : Float64 → Number) (body : Any) : Except Error Wire :=
  match Marshal format body with
  | Except.error err => Except.error err
  | Except.ok d => Except.ok (Wire.json d)

/-- Call `json.NewDecoder(res.Body).Decode(&m)` with `m` of type
`map[string]any`: an empty body is `io.EOF`, non-JSON bytes are a syntax
error, an object fills the map (an error if one of its numbers is out of
range), `null` leaves the map nil without an error, and every other JSON value
is an `UnmarshalTypeError`. -/
def Decode : Wire → Except Error Map
  | Wire.empty => Except.error Error.EOF
  | Wire.invalid raw => Except.error (Error.SyntaxError raw)
  | Wire.json Doc.null => Except.ok []
  | Wire.json (Doc.object ms) => objectInterface ms
  | Wire.json (Doc.bool _) => Except.error (Error.UnmarshalTypeError "bool")
  | Wire.json (Doc.number _) => Except.error (Error.UnmarshalTypeError "number")
  | Wire.json (Doc.string _) => Except.error (Error.UnmarshalTypeError "string")
  | Wire.json (Doc.array _) => Except.error (Error.UnmarshalTypeError "array")

/-! ## HTTP -/

/-- Constant `http.StatusOK`. -/
abbrev http.StatusOK : Int := 200

/-- Constant `http.StatusNoContent`. -/
abbrev http.StatusNoContent : Int := 204

/-- Constant `http.StatusNotFound`. -/
abbrev http.StatusNotFound : Int := 404

/-- Constant `http.MethodGet`. -/
abbrev http.MethodGet : String := "GET"

/-- Constant `http.MethodPost`. -/
abbrev http.MethodPost : String := "POST"

/-- Constant `http.MethodDelete`. -/
abbrev http.MethodDelete : String := "DELETE"

/-- Type `http.Request`, with the fields `doReq` sets: the context, the
method, the URL, the headers and the body. -/
structure Request (κ : Type) where
  ctx : κ
  Method : String
  URL : String
  Header : List (String × String)
  Body : Wire

/-- Type `http.Response`, with the fields the client reads. -/
structure Response where
  StatusCode : Int
  Body : Wire

/-- The standard library and the network behind it, as far as `doReq` calls
them.  `FormatFloat f` is the number literal the JSON encoder writes for the
`float64` `f` (`strconv.AppendFloat`); `NewRequestWithContext ctx method url`
is the error of `http.NewRequestWithContext` (`none` is nil); `Do req st` is
`http.DefaultClient.Do(req)` against a backend in state `st`: the response or
the error, and the backend state after the round trip. -/
structure Platform (κ σ : Type) where
  FormatFloat : Float64 → Number
  NewRequestWithContext : κ → String → String → Option Error
  Do : Request κ → σ → Except Error Response × σ

/-! ## The client -/

/-- Constant `supportedEngineVersion`. -/
def supportedEngineVersion : Int := 2

/-- Function `fmt.Sprint` at an integer argument. -/
def fmt.Sprint (n : Int) : String := toString n

/-- Type `Config`. -/
structure Config where
  Addr : String
  Engine : String
  Token : String
  deriving DecidableEq, Repr

/-- Type `h`, the client handle. -/
structure h where
  c : Config
  deriving DecidableEq, Repr

variable {κ σ : Type}

/-- Method `doReq`: encode the body, build the request for the URL
`Addr + "/v1" + path` with the bearer token and the JSON content type, perform
the round trip, decode the response body into a `map[string]any`.
`Except.error err` stands for `(nil, nil, err)` and `Except.ok (res, m)` for
`(res, m, nil)`. -/
def h.doReq (p : Platform κ σ) (s : h) (ctx : κ) (method path : String) (body : Any)
    (st : σ) : Except Error (Response × Map) × σ :=
  match Encode p.FormatFloat body with
  | Except.error err => (Except.error (Error.failedToEncode err), st)
  | Except.ok b =>
    match p.NewRequestWithContext ctx method (s.c.Addr ++ "/v1" ++ path) with
    | some err => (Except.error (Error.failedToCreate err), st)
    | none =>
      match p.Do ⟨ctx, method, s.c.Addr ++ "/v1" ++ path,
          [("Authorization", "Bearer " ++ s.c.Token), ("Content-Type", "application/json")],
          b⟩ st with
      | (Except.error err, st') => (Except.error (Error.failedToRequest err), st')
      | (Except.ok res, st') =>
        match Decode res.Body with
        | Except.error err => (Except.error (Error.failedToDecode err), st')
        | Except.ok m => (Except.ok (res, m), st')

/-- Function `New`.  The result pair is Go's `(Client, error)`: `none` is nil. -/
def New (p : Platform κ σ) (ctx : κ) (c : Config) (st : σ) :
    (Option h × Option Error) × σ :=
  let s : h := ⟨c⟩
  match s.doReq p ctx http.MethodGet ("/sys/mounts/" ++ c.Engine) Any.nil st with
  | (Except.error err, st') => ((none, some (Error.failedToRequest err)), st')
  | (Except.ok (res, body), st') =>
    if res.StatusCode ≠ http.StatusOK then
      ((none, some (Error.unexpectedStatus res.StatusCode)), st')
    else
      match asMap (index body "data") with
      | none => ((none, some Error.ErrEngineUnsupported), st')
      | some d =>
        if neString (index d "type") "kv" then
          ((none, some Error.ErrEngineUnsupported), st')
        else
          match asMap (index d "options") with
          | none => ((none, some Error.ErrEngineUnsupported), st')
          | some d =>
            if neString (index d "version") (fmt.Sprint supportedEngineVersion) then
              ((none, some Error.ErrEngineUnsupported), st')
            else
              ((some s, none), st')

/-- Method `Get`.  The result pair is Go's `(map[string]any, error)`. -/
def h.Get (p : Platform κ σ) (s : h) (ctx : κ) (key : String) (st : σ) :
    (Option Map × Option Error) × σ :=
  match s.doReq p ctx http.MethodGet ("/" ++ s.c.Engine ++ "/data/" ++ key) Any.nil st with
  | (Except.error err, st') => ((none, some (Error.failedToRequest err)), st')
  | (Except.ok (res, body), st') =>
    if res.StatusCode = http.StatusNotFound then
      ((none, some Error.ErrKeyNotFound), st')
    else if res.StatusCode ≠ http.StatusOK then
      ((none, some (Error.unexpectedStatus res.StatusCode)), st')
    else
      match asMap (index body "data") with
      | none => ((none, some Error.ErrKeyNotFound), st')
      | some d =>
        match asMap (index d "data") with
        | none => ((none, some Error.ErrKeyNotFound), st')
        | some d => ((some d, none), st')

/-- Method `Set`.  The result is Go's `error`: `none` is nil.  The value is a
`map[string]any`, `none` being the nil map. -/
def h.Set (p : Platform κ σ) (s : h) (ctx : κ) (key : String) (value : Option Map) (st : σ) :
    Option Error × σ :=
  match s.doReq p ctx http.MethodPost ("/" ++ s.c.Engine ++ "/data/" ++ key)
      (Any.map [("data", ofMap value)]) st with
  | (Except.error err, st') => (some (Error.failedToRequest err), st')
  | (Except.ok (res, _), st') =>
    if res.StatusCode ≠ http.StatusOK then
      (some (Error.unexpectedStatus res.StatusCode), st')
    else
      (none, st')

/-- Method `Delete`. -/
def h.Delete (p : Platform κ σ) (s : h) (ctx : κ) (key : String) (st : σ) :
    Option Error × σ :=
  match s.doReq p ctx http.MethodDelete ("/" ++ s.c.Engine ++ "/data/" ++ key) Any.nil st with
  | (Except.error err, st') => (some (Error.failedToRequest err), st')
  | (Except.ok (res, _), st') =>
    if res.StatusCode ≠ http.StatusNoContent then
      (some (Error.unexpectedStatus res.StatusCode), st')
    else
      (none, st')

/-- Method `Ping`. -/
def h.Ping (p : Platform κ σ) (s : h) (ctx : κ) (st : σ) : Option Error × σ :=
  match s.doReq p ctx http.MethodGet "/sys/health" Any.nil st with
  | (Except.error err, st') => (some (Error.failedToRequest err), st')
  | (Except.ok (res, _), st') =>
    if res.StatusCode ≠ http.StatusOK then
      (some (Error.unexpectedStatus res.StatusCode), st')
    else
      (none, st')

/-! ## Stating the claims -/

/-- The request of the wire protocol: `method` on the URL `Addr + "/v1" + path`
with the headers `Authorization: Bearer <token>` and
`Content-Type: application/json` and the body `b`. -/
def wireRequest (c : Config) (ctx : κ) (method path : String) (b : Wire) : Request κ :=
  ⟨ctx, method, c.Addr ++ "/v1" ++ path,
    [("Authorization", "Bearer " ++ c.Token), ("Content-Type", "application/json")], b⟩

/-- The transport delivers `res`: the body `body` encodes, request
construction succeeds and the round trip for the request of the wire protocol
with `method`, `path` and the encoded body is answered with `res`, leaving the
backend in state `st'`. -/
def Delivers (p : Platform κ σ) (s : h) (ctx : κ) (method path : String) (body : Any)
    (st : σ) (res : Response) (st' : σ) : Prop :=
  ∃ b : Wire, Encode p.FormatFloat body = Except.ok b ∧
    p.NewRequestWithContext ctx method (s.c.Addr ++ "/v1" ++ path) = none ∧
    p.Do (wireRequest s.c ctx method path b) st = (Except.ok res, st')

/-- The mount descriptor the construction check accepts, in the words of the
specification: `b.data` is an object whose `type` is the string `kv` and
whose `options` is an object whose `version` is the string `2`. -/
def SupportedMount (b : Map) : Prop :=
  ∃ d : Map, index b "data" = Any.map d ∧ index d "type" = Any.string "kv" ∧
    ∃ o : Map, index d "options" = Any.map o ∧ index o "version" = Any.string "2"

/-- A platform that accepts every request and answers each round trip with
`res`; it has no backend state. -/
def answering (res : Response) : Platform Unit Unit :=
  ⟨exactDecimal, fun _ _ _ => none, fun _ st => (Except.ok res, st)⟩

/-- A configuration for the examples. -/
def exampleConfig : Config := ⟨"http://127.0.0.1:8200", "secret", "root"⟩

/-- The mount-check document of a KV version-2 mount:
`data.type` is `"kv"` and `data.options.version` is `"2"`. -/
def kvMountDoc : Doc :=
  Doc.object [("data", Doc.object [("type", Doc.string "kv"),
    ("options", Doc.object [("version", Doc.string "2")])])]

/-- The decoded form of `kvMountDoc`. -/
def kvMountBody : Map :=
  [("data", Any.map [("type", Any.string "kv"), ("options", Any.map [("version", Any.string "2")])])]

/-- The `float64` 1. -/
def Float64.one : Float64 := ⟨false, 1, 0, by decide⟩

/-- The `float64` 2. -/
def Float64.two : Float64 := ⟨false, 1, 1, by decide⟩

/-- The error taxonomy of the specification: transport error,
unexpected-status error, key-not-found and engine-unsupported. -/
inductive ErrorKind where
  | transport : ErrorKind
  | unexpectedStatus : ErrorKind
  | keyNotFound : ErrorKind
  | engineUnsupported : ErrorKind
  deriving DecidableEq, Repr

/-- The kind of an error value in the taxonomy of the specification: the two
sentinels and the status error are kinds of their own, every other error
(encoding, request construction, round trip, decoding) is a transport error. -/
def kindOf : Error → ErrorKind
  | Error.ErrKeyNotFound => ErrorKind.keyNotFound
  | Error.ErrEngineUnsupported => ErrorKind.engineUnsupported
  | Error.unexpectedStatus _ => ErrorKind.unexpectedStatus
  | _ => ErrorKind.transport

mutual
/-- A value in decoded form that the codec reads back: built from `nil`,
`bool`, `float64`, `string`, slices and maps only, each `float64` being
written by `format` as a literal that `strconv.ParseFloat` parses back to it
(the guarantee of `strconv` for the digits it writes). -/
def readsBack (format : Float64 → Number) : Any → Bool
  | Any.nil => true
  | Any.bool _ => true
  | Any.int64 _ => false
  | Any.float64 f => decide (strconv.ParseFloat (format f) = some f)
  | Any.unsupported => false
  | Any.string _ => true
  | Any.slice xs => readsBackList format xs
  | Any.map m => readsBackMembers format m
/-- Every element of a slice reads back. -/
def readsBackList (format : Float64 → Number) : List Any → Bool
  | [] => true
  | x :: xs => readsBack format x && readsBackList format xs
/-- Every value of a map reads back. -/
def readsBackMembers (format : Float64 → Number) : List (String × Any) → Bool
  | [] => true
  | (_, x) :: xs => readsBack format x && readsBackMembers format xs
end

/-- The URL holds an ASCII control character (a byte below `0x20`, or `0x7f`);
`url.Parse`, and with it `http.NewRequestWithContext`, rejects such a URL. -/
def containsControl (url : String) : Bool :=
  url.data.any fun ch => decide (ch.toNat < 32) || decide (ch.toNat = 127)

/-- The member `data` of an object, `null` when there is none. -/
def dataMember (members : List (String × Doc)) : Doc :=
  match members.lookup "data" with
  | some X => X
  | none => Doc.null

/-- An in-memory backend behind a platform whose request construction rejects
a URL with a control character and accepts every other.  Its state binds a
URL to the document last written there.  A POST with an object body stores the
member `data` and is answered with status 200 and the body `postBody`; a GET
of a written URL is answered with status 200 and the stored document under
`data.data`, a GET of any other URL with status 404; every other request is
answered with status 405. -/
def memoryBackend (postBody : Wire) : Platform Unit (List (String × Doc)) :=
  ⟨exactDecimal,
    fun _ _ url =>
      if containsControl url then some (Error.lib "net/url: invalid control character in URL")
      else none,
    fun req st =>
      if req.Method = http.MethodPost then
        match req.Body with
        | Wire.json (Doc.object m) => (Except.ok ⟨200, postBody⟩, (req.URL, dataMember m) :: st)
        | _ => (Except.ok ⟨400, Wire.json (Doc.object [("errors", Doc.array [])])⟩, st)
      else if req.Method = http.MethodGet then
        match st.lookup req.URL with
        | some X =>
          (Except.ok ⟨200, Wire.json (Doc.object [("data", Doc.object [("data", X)])])⟩, st)
        | none => (Except.ok ⟨404, Wire.json (Doc.object [("errors", Doc.array [])])⟩, st)
      else
        (Except.ok ⟨405, Wire.json (Doc.object [("errors", Doc.array [])])⟩, st)⟩

/-- A conforming backend for a write of `key` under the context `ctx₁`
followed by a read under `ctx₂`, as the round-trip property describes it: the
POST request of the wire protocol for `/v1/<engine>/data/<key>` with the body
`data: X` is answered with status 200 (with some body) and stores `X`, so that
the GET request for the same path that follows is answered with status 200 and
the body `data: data: X`. -/
def Conforming (p : Platform κ σ) (c : Config) (key : String) (ctx₁ ctx₂ : κ) : Prop :=
  ∀ (X : Doc) (st : σ), ∃ (body : Wire) (st' : σ),
    p.Do (wireRequest c ctx₁ http.MethodPost ("/" ++ c.Engine ++ "/data/" ++ key)
      (Wire.json (Doc.object [("data", X)]))) st = (Except.ok ⟨200, body⟩, st') ∧
    ∃ st'' : σ,
      p.Do (wireRequest c ctx₂ http.MethodGet ("/" ++ c.Engine ++ "/data/" ++ key)
        (Wire.json Doc.null)) st' =
      (Except.ok ⟨200, Wire.json (Doc.object [("data", Doc.object [("data", X)])])⟩, st'')

/-- The backend answers the POST request of the wire protocol for `key` with a
body that decodes into a `map[string]any`. -/
def AnswersPostWithObject (p : Platform κ σ) (c : Config) (key : String) (ctx₁ : κ) : Prop :=
  ∀ (X : Doc) (st st' : σ) (res : Response),
    p.Do (wireRequest c ctx₁ http.MethodPost ("/" ++ c.Engine ++ "/data/" ++ key)
      (Wire.json (Doc.object [("data", X)]))) st = (Except.ok res, st') →
    ∃ m : Map, Decode res.Body = Except.ok m

/-- The record of the round-trip example: `a` is the `float64` 1.5 and `b` is
the slice of `true` and the string `x`. -/
def exampleRecord : Map :=
  [("a", Any.float64 ⟨false, 3, -1, by decide⟩), ("b", Any.slice [Any.bool true, Any.string "x"])]

/-- The record of the integer example: `n` is the `int64` `2 ^ 53 + 1`. -/
def bigIntRecord : Map := [("n", Any.int64 ⟨9007199254740993, by decide⟩)]

/-- The record read after `bigIntRecord` was written: `n` is the `float64`
`2 ^ 53`. -/
def bigIntRecordRead : Map := [("n", Any.float64 ⟨false, 1, 53, by decide⟩)]

/-! # Theorems -/

/-! ## The shared transport -/

theorem doReq_of_delivers (p : Platform κ σ) (s : h) (ctx : κ) (method path : String)
    (body : Any) (st st' : σ) (res : Response)
    (hd : Delivers p s ctx method path body st res st') :
    s.doReq p ctx method path body st =
      match Decode res.Body with
      | Except.error err => (Except.error (Error.failedToDecode err), st')
      | Except.ok m => (Except.ok (res, m), st') := by
  obtain ⟨b, h0, h1, h2⟩ := hd
  simp only [wireRequest] at h2
  simp only [h.doReq, h0, h1, h2]

theorem doReq_ok (p : Platform κ σ) (s : h) (ctx : κ) (method path : String)
    (body : Any) (st st' : σ) (res : Response) (m : Map)
    (hd : Delivers p s ctx method path body st res st') (hb : Decode res.Body = Except.ok m) :
    s.doReq p ctx method path body st = (Except.ok (res, m), st') := by
  rw [doReq_of_delivers p s ctx method path body st st' res hd, hb]

theorem doReq_decode_error (p : Platform κ σ) (s : h) (ctx : κ) (method path : String)
    (body : Any) (st st' : σ) (res : Response) (e : Error)
    (hd : Delivers p s ctx method path body st res st') (hb : Decode res.Body = Except.error e) :
    s.doReq p ctx method path body st = (Except.error (Error.failedToDecode e), st') := by
  rw [doReq_of_delivers p s ctx method path body st st' res hd, hb]

/-- The platform `answering res` delivers `res` to every bodiless request. -/
theorem answering_delivers (res : Response) (s : h) (method path : String) :
    Delivers (answering res) s () method path Any.nil () res () :=
  ⟨Wire.json Doc.null, rfl, rfl, rfl⟩

theorem asMap_eq_some (x : Any) (d : Map) : asMap x = some d ↔ x = Any.map d := by
  cases x <;> simp [asMap]

theorem asMap_eq_none (x : Any) : asMap x = none ↔ ∀ d : Map, x ≠ Any.map d := by
  cases x <;> simp [asMap]

theorem neString_eq_false (x : Any) (t : String) : neString x t = false ↔ x = Any.string t := by
  cases x <;> simp [neString]

theorem Sprint_supportedEngineVersion : fmt.Sprint supportedEngineVersion = "2" := by decide

/-- The status error renders the observed status code in its message. -/
theorem unexpectedStatus_message :
    (Error.unexpectedStatus 204).Error = "unexpected response status '204' received" := by
  decide

/-- The message of the error every operation returns on an empty response body. -/
theorem decode_failure_message :
    (Error.failedToRequest (Error.failedToDecode Error.EOF)).Error =
      "failed to request: failed to decode response body: EOF" := by
  decide

/-! ## Numbers in the decoder -/

/-- The literal `9007199254740993` (`2 ^ 53 + 1`) decodes to the `float64` `2 ^ 53`. -/
theorem ParseFloat_rounds_to_even :
    strconv.ParseFloat ⟨false, 9007199254740993, 0⟩ = some ⟨false, 1, 53, by decide⟩ := by
  decide

/-- The literal `0.1` decodes to the `float64` `3602879701896397 * 2 ^ -55`. -/
theorem ParseFloat_one_tenth :
    strconv.ParseFloat ⟨false, 1, -1⟩ = some ⟨false, 3602879701896397, -55, by decide⟩ := by
  decide

/-- The literal `1e400` is out of range, and a body holding it does not decode. -/
theorem Decode_number_out_of_range :
    strconv.ParseFloat ⟨false, 1, 400⟩ = none ∧
    Decode (Wire.json (Doc.object [("x", Doc.number ⟨false, 1, 400⟩)])) =
      Except.error (Error.UnmarshalTypeError "number") :=
  ⟨rfl, rfl⟩

/-- A value the encoder rejects makes `Set` fail before any request is made. -/
theorem Set_unsupported_value_fails_to_encode :
    (h.Set (answering ⟨200, Wire.json (Doc.object [])⟩) ⟨exampleConfig⟩ () "k"
      (some [("x", Any.unsupported)]) ()).1 =
      some (Error.failedToRequest (Error.failedToEncode Error.Unsupported)) := rfl

/-! ## Construction -/

theorem New_of_response (p : Platform κ σ) (ctx : κ) (c : Config) (st st' : σ)
    (res : Response) (b : Map)
    (hd : Delivers p ⟨c⟩ ctx http.MethodGet ("/sys/mounts/" ++ c.Engine) Any.nil st res st')
    (hb : Decode res.Body = Except.ok b) :
    (res.StatusCode ≠ 200 → (New p ctx c st).1 = (none, some (Error.unexpectedStatus res.StatusCode))) ∧
    (res.StatusCode = 200 → SupportedMount b → (New p ctx c st).1 = (some ⟨c⟩, none)) ∧
    (res.StatusCode = 200 → ¬ SupportedMount b →
      (New p ctx c st).1 = (none, some Error.ErrEngineUnsupported)) := by
  have hreq := doReq_ok p ⟨c⟩ ctx http.MethodGet ("/sys/mounts/" ++ c.Engine) Any.nil st st' res b hd hb
  refine ⟨?_, ?_, ?_⟩
  · intro hs
    simp [New, hreq, hs]
  · rintro hs ⟨d, h1, h2, o, h3, h4⟩
    simp [New, hreq, hs, h1, h2, h3, h4, asMap, neString, Sprint_supportedEngineVersion]
  · intro hs hn
    simp only [New, hreq, hs]
    cases h1 : asMap (index b "data") with
    | none => simp
    | some d =>
      by_cases h2 : neString (index d "type") "kv" = true
      · simp [h2]
      · cases h3 : asMap (index d "options") with
        | none => simp [h2, h3]
        | some o =>
          by_cases h4 : neString (index o "version") (fmt.Sprint supportedEngineVersion) = true
          · simp [h2, h3, h4]
          · exfalso
            apply hn
            rw [Sprint_supportedEngineVersion] at h4
            exact ⟨d, (asMap_eq_some _ _).1 h1, (neString_eq_false _ _).1 (by simpa using h2), o,
              (asMap_eq_some _ _).1 h3, (neString_eq_false _ _).1 (by simpa using h4)⟩

/-- Whatever the platform does, `New` returns either the handle holding the
configuration with a nil error, or a nil handle with a non-nil error. -/
theorem New_handle_or_error (p : Platform κ σ) (ctx : κ) (c : Config) (st : σ) :
    (New p ctx c st).1 = (some ⟨c⟩, none) ∨ ∃ e : Error, (New p ctx c st).1 = (none, some e) := by
  simp only [New]
  generalize h.doReq p ⟨c⟩ ctx http.MethodGet ("/sys/mounts/" ++ c.Engine) Any.nil st = r
  rcases r with ⟨_ | ⟨res, body⟩, st'⟩
  · simp
  · by_cases hs : res.StatusCode = 200
    · cases h1 : asMap (index body "data") with
      | none => simp [hs, h1]
      | some d =>
        by_cases h2 : neString (index d "type") "kv" = true
        · simp [hs, h1, h2]
        · cases h3 : asMap (index d "options") with
          | none => simp [hs, h1, h2, h3]
          | some o =>
            by_cases h4 : neString (index o "version") (fmt.Sprint supportedEngineVersion) = true
            · simp [hs, h1, h2, h3, h4]
            · simp [hs, h1, h2, h3, h4]
    · simp [hs]

/-- C1: for every mount-check response the transport delivers, with status
`res.StatusCode` and decoded body `b`, `New` returns a handle with a nil error
if and only if the status is 200 and `b.data` is an object of type `"kv"` whose
`options` object has version `"2"`; then the handle is the one holding the
configuration, and in every other case `New` returns a nil handle with a
non-nil error. -/
theorem New_handle_iff_supported_mount (p : Platform κ σ) (ctx : κ) (c : Config) (st st' : σ)
    (res : Response) (b : Map)
    (hd : Delivers p ⟨c⟩ ctx http.MethodGet ("/sys/mounts/" ++ c.Engine) Any.nil st res st')
    (hb : Decode res.Body = Except.ok b) :
    (((New p ctx c st).1.1 ≠ none ∧ (New p ctx c st).1.2 = none) ↔
      (res.StatusCode = 200 ∧ SupportedMount b)) ∧
    (res.StatusCode = 200 ∧ SupportedMount b → (New p ctx c st).1 = (some ⟨c⟩, none)) ∧
    (¬ (res.StatusCode = 200 ∧ SupportedMount b) →
      (New p ctx c st).1.1 = none ∧ (New p ctx c st).1.2 ≠ none) := by
  obtain ⟨h1, h2, h3⟩ := New_of_response p ctx c st st' res b hd hb
  by_cases hs : res.StatusCode = 200
  · by_cases hm : SupportedMount b
    · simp [h2 hs hm, hs, hm]
    · simp [h3 hs hm, hs, hm]
  · simp [h1 hs, hs]

/-- C1, at the mount-check response of a KV version-2 mount: `New` returns the handle. -/
theorem New_handle_iff_supported_mount_witness :
    Delivers (answering ⟨200, Wire.json kvMountDoc⟩) ⟨exampleConfig⟩ ()
      http.MethodGet ("/sys/mounts/" ++ exampleConfig.Engine) Any.nil ()
      ⟨200, Wire.json kvMountDoc⟩ () ∧
    Decode (Wire.json kvMountDoc) = Except.ok kvMountBody ∧
    (New (answering ⟨200, Wire.json kvMountDoc⟩) () exampleConfig ()).1 =
      (some ⟨exampleConfig⟩, none) :=
  ⟨answering_delivers _ _ _ _, rfl,
    (New_handle_iff_supported_mount (answering ⟨200, Wire.json kvMountDoc⟩) ()
      exampleConfig () () ⟨200, Wire.json kvMountDoc⟩ kvMountBody
      (answering_delivers _ _ _ _) rfl).2.1
      ⟨rfl, [("type", Any.string "kv"), ("options", Any.map [("version", Any.string "2")])],
        rfl, rfl, [("version", Any.string "2")], rfl, rfl⟩⟩

/-- A version given as the JSON number 2 is not the string `"2"`: construction fails. -/
theorem New_rejects_numeric_version :
    (New (answering ⟨200, Wire.json (Doc.object [("data", Doc.object [("type", Doc.string "kv"),
      ("options", Doc.object [("version", Doc.number ⟨false, 2, 0⟩)])])])⟩) ()
      exampleConfig ()).1 = (none, some Error.ErrEngineUnsupported) := rfl

/-- A descriptor without `options`: construction fails. -/
theorem New_rejects_missing_options :
    (New (answering ⟨200, Wire.json (Doc.object [("data",
      Doc.object [("type", Doc.string "kv")])])⟩) () exampleConfig ()).1 =
      (none, some Error.ErrEngineUnsupported) := rfl

/-- A mount of type `generic`: construction fails. -/
theorem New_rejects_generic_type :
    (New (answering ⟨200, Wire.json (Doc.object [("data", Doc.object [("type",
      Doc.string "generic"), ("options", Doc.object [("version", Doc.string "2")])])])⟩) ()
      exampleConfig ()).1 = (none, some Error.ErrEngineUnsupported) := rfl

/-! ## Get -/

theorem Get_of_response (p : Platform κ σ) (s : h) (ctx : κ) (key : String) (st st' : σ)
    (res : Response) (b : Map)
    (hd : Delivers p s ctx http.MethodGet ("/" ++ s.c.Engine ++ "/data/" ++ key) Any.nil st res st')
    (hb : Decode res.Body = Except.ok b) :
    (res.StatusCode = 404 → (s.Get p ctx key st).1 = (none, some Error.ErrKeyNotFound)) ∧
    (res.StatusCode ≠ 404 → res.StatusCode ≠ 200 →
      (s.Get p ctx key st).1 = (none, some (Error.unexpectedStatus res.StatusCode))) ∧
    (res.StatusCode = 200 → ∀ d R : Map, index b "data" = Any.map d → index d "data" = Any.map R →
      (s.Get p ctx key st).1 = (some R, none)) ∧
    (res.StatusCode = 200 → (∀ d : Map, index b "data" ≠ Any.map d) →
      (s.Get p ctx key st).1 = (none, some Error.ErrKeyNotFound)) ∧
    (res.StatusCode = 200 → ∀ d : Map, index b "data" = Any.map d →
      (∀ R : Map, index d "data" ≠ Any.map R) →
      (s.Get p ctx key st).1 = (none, some Error.ErrKeyNotFound)) := by
  have hreq := doReq_ok p s ctx http.MethodGet ("/" ++ s.c.Engine ++ "/data/" ++ key) Any.nil
    st st' res b hd hb
  refine ⟨?_, ?_, ?_, ?_, ?_⟩
  · intro hs
    simp [h.Get, hreq, hs]
  · intro h4 h2
    simp [h.Get, hreq, h4, h2]
  · intro hs d R h1 h2
    simp [h.Get, hreq, hs, h1, h2, asMap]
  · intro hs h1
    simp [h.Get, hreq, hs, (asMap_eq_none _).2 h1]
  · intro hs d h1 h2
    simp [h.Get, hreq, hs, h1, asMap, (asMap_eq_none _).2 h2]

/-- C2: for every response to `Get` with status 200 whose decoded body `b` has
an object `d` under `"data"` that has an object `R` under `"data"`, `Get`
returns exactly `R` with a nil error. -/
theorem Get_returns_inner_object (p : Platform κ σ) (s : h) (ctx : κ) (key : String)
    (st st' : σ) (res : Response) (b d R : Map)
    (hd : Delivers p s ctx http.MethodGet ("/" ++ s.c.Engine ++ "/data/" ++ key) Any.nil st res st')
    (hs : res.StatusCode = 200) (hb : Decode res.Body = Except.ok b)
    (h1 : index b "data" = Any.map d) (h2 : index d "data" = Any.map R) :
    (s.Get p ctx key st).1 = (some R, none) :=
  (Get_of_response p s ctx key st st' res b hd hb).2.2.1 hs d R h1 h2

/-- C2, at the body whose `data.data` is the object `"a": 1`: `Get` yields that object. -/
theorem Get_returns_inner_object_witness :
    (h.Get (answering ⟨200, Wire.json (Doc.object [("data", Doc.object [("data",
        Doc.object [("a", Doc.number ⟨false, 1, 0⟩)])])])⟩) ⟨exampleConfig⟩ () "k" ()).1 =
      (some [("a", Any.float64 Float64.one)], none) :=
  Get_returns_inner_object
    (answering ⟨200, Wire.json (Doc.object [("data", Doc.object [("data",
      Doc.object [("a", Doc.number ⟨false, 1, 0⟩)])])])⟩)
    ⟨exampleConfig⟩ () "k" () ()
    ⟨200, Wire.json (Doc.object [("data", Doc.object [("data",
      Doc.object [("a", Doc.number ⟨false, 1, 0⟩)])])])⟩
    [("data", Any.map [("data", Any.map [("a", Any.float64 Float64.one)])])]
    [("data", Any.map [("a", Any.float64 Float64.one)])]
    [("a", Any.float64 Float64.one)]
    (answering_delivers _ _ _ _) rfl rfl rfl rfl

/-- C3 as stated fails: a 404 response whose body is empty makes `Get` return
the transport error wrapping the decode failure, not `ErrKeyNotFound`. -/
theorem Get_404_empty_body_is_transport_error :
    Delivers (answering ⟨404, Wire.empty⟩) ⟨exampleConfig⟩ () http.MethodGet
      ("/" ++ exampleConfig.Engine ++ "/data/" ++ "k") Any.nil () ⟨404, Wire.empty⟩ () ∧
    (h.Get (answering ⟨404, Wire.empty⟩) ⟨exampleConfig⟩ () "k" ()).1 =
      (none, some (Error.failedToRequest (Error.failedToDecode Error.EOF))) ∧
    (h.Get (answering ⟨404, Wire.empty⟩) ⟨exampleConfig⟩ () "k" ()).1 ≠
      (none, some Error.ErrKeyNotFound) ∧
    kindOf (Error.failedToRequest (Error.failedToDecode Error.EOF)) = ErrorKind.transport :=
  ⟨answering_delivers _ _ _ _, rfl,
    by
      have hget : (h.Get (answering ⟨404, Wire.empty⟩) ⟨exampleConfig⟩ () "k" ()).1 =
          (none, some (Error.failedToRequest (Error.failedToDecode Error.EOF))) := rfl
      rw [hget]
      simp,
    rfl⟩

/-- C3, amended: for every response to `Get` whose status is 404 and whose
body decodes (to any map `b`), `Get` returns `ErrKeyNotFound` and no record;
the error is of kind key-not-found, not a transport or status error. -/
theorem Get_404_is_key_not_found (p : Platform κ σ) (s : h) (ctx : κ) (key : String)
    (st st' : σ) (res : Response) (b : Map)
    (hd : Delivers p s ctx http.MethodGet ("/" ++ s.c.Engine ++ "/data/" ++ key) Any.nil st res st')
    (hs : res.StatusCode = 404) (hb : Decode res.Body = Except.ok b) :
    (s.Get p ctx key st).1 = (none, some Error.ErrKeyNotFound) ∧
    kindOf Error.ErrKeyNotFound = ErrorKind.keyNotFound :=
  ⟨(Get_of_response p s ctx key st st' res b hd hb).1 hs, rfl⟩

/-- C3 amended, at a 404 response whose body is an object with an empty `errors` array. -/
theorem Get_404_is_key_not_found_witness :
    (h.Get (answering ⟨404, Wire.json (Doc.object [("errors", Doc.array [])])⟩)
      ⟨exampleConfig⟩ () "k" ()).1 = (none, some Error.ErrKeyNotFound) :=
  (Get_404_is_key_not_found (answering ⟨404, Wire.json (Doc.object [("errors", Doc.array [])])⟩)
    ⟨exampleConfig⟩ () "k" () () ⟨404, Wire.json (Doc.object [("errors", Doc.array [])])⟩
    [("errors", Any.slice [])] (answering_delivers _ _ _ _) rfl rfl).1

/-- C4: for every response to `Get` with status 200 whose decoded body `b` has
no object under `"data"`, or whose `"data"` object has no object under
`"data"`, `Get` returns `ErrKeyNotFound` and no record. -/
theorem Get_malformed_payload_is_key_not_found (p : Platform κ σ) (s : h) (ctx : κ)
    (key : String) (st st' : σ) (res : Response) (b : Map)
    (hd : Delivers p s ctx http.MethodGet ("/" ++ s.c.Engine ++ "/data/" ++ key) Any.nil st res st')
    (hs : res.StatusCode = 200) (hb : Decode res.Body = Except.ok b)
    (hm : (∀ d : Map, index b "data" ≠ Any.map d) ∨
      ∃ d : Map, index b "data" = Any.map d ∧ ∀ R : Map, index d "data" ≠ Any.map R) :
    (s.Get p ctx key st).1 = (none, some Error.ErrKeyNotFound) ∧
    kindOf Error.ErrKeyNotFound = ErrorKind.keyNotFound := by
  obtain ⟨_, _, _, h4, h5⟩ := Get_of_response p s ctx key st st' res b hd hb
  refine ⟨?_, rfl⟩
  rcases hm with h1 | ⟨d, h1, h2⟩
  · exact h4 hs h1
  · exact h5 hs d h1 h2

/-- C4, at the body whose `data` is the empty object: `Get` yields `ErrKeyNotFound`. -/
theorem Get_malformed_payload_is_key_not_found_witness :
    (h.Get (answering ⟨200, Wire.json (Doc.object [("data", Doc.object [])])⟩)
      ⟨exampleConfig⟩ () "k" ()).1 = (none, some Error.ErrKeyNotFound) :=
  (Get_malformed_payload_is_key_not_found
    (answering ⟨200, Wire.json (Doc.object [("data", Doc.object [])])⟩)
    ⟨exampleConfig⟩ () "k" () () ⟨200, Wire.json (Doc.object [("data", Doc.object [])])⟩
    [("data", Any.map [])] (answering_delivers _ _ _ _) rfl rfl
    (Or.inr ⟨[], rfl, fun R hR => by simp [index] at hR⟩)).1

/-! ## Delete, Set and Ping -/

/-- C5, the code at the failing input: a 204 response to `Delete` with an
empty body (the only body a No Content response has) does not make `Delete`
return nil; the decode step of `doReq` fails first and `Delete` returns the
transport error wrapping `EOF`. -/
theorem Delete_204_empty_body_fails :
    Delivers (answering ⟨204, Wire.empty⟩) ⟨exampleConfig⟩ () http.MethodDelete
      ("/" ++ exampleConfig.Engine ++ "/data/" ++ "k") Any.nil () ⟨204, Wire.empty⟩ () ∧
    (h.Delete (answering ⟨204, Wire.empty⟩) ⟨exampleConfig⟩ () "k" ()).1 =
      some (Error.failedToRequest (Error.failedToDecode Error.EOF)) ∧
    (h.Delete (answering ⟨204, Wire.empty⟩) ⟨exampleConfig⟩ () "k" ()).1 ≠ none :=
  ⟨answering_delivers _ _ _ _, rfl, by decide⟩

/-- On a platform that delivers every 204 response with an empty body, as HTTP
prescribes for No Content, `Delete` never returns nil. -/
theorem Delete_fails_when_no_content_has_no_body (p : Platform κ σ) (s : h) (ctx : κ)
    (key : String) (st : σ)
    (hp : ∀ (req : Request κ) (st₁ st₂ : σ) (res : Response),
      p.Do req st₁ = (Except.ok res, st₂) → res.StatusCode = 204 → res.Body = Wire.empty) :
    (s.Delete p ctx key st).1 ≠ none := by
  have henc : Encode p.FormatFloat Any.nil = Except.ok (Wire.json Doc.null) := rfl
  simp only [h.Delete, h.doReq, henc]
  cases hnew : p.NewRequestWithContext ctx http.MethodDelete
      (s.c.Addr ++ "/v1" ++ ("/" ++ s.c.Engine ++ "/data/" ++ key)) with
  | some err => simp
  | none =>
    rcases hdo : p.Do ⟨ctx, http.MethodDelete,
        s.c.Addr ++ "/v1" ++ ("/" ++ s.c.Engine ++ "/data/" ++ key),
        [("Authorization", "Bearer " ++ s.c.Token), ("Content-Type", "application/json")],
        Wire.json Doc.null⟩ st with ⟨_ | res, st'⟩
    · simp
    · by_cases hs : res.StatusCode = 204
      · have hbody := hp _ _ _ _ hdo hs
        simp [hbody, Decode]
      · cases hb : Decode res.Body with
        | error e => simp [hb]
        | ok m => simp [hb, hs]

/-- For a response to `Delete` whose body decodes and whose status is not 204
(200 included), `Delete` returns the unexpected-status error carrying the
observed status. -/
theorem Delete_other_status_is_status_error (p : Platform κ σ) (s : h) (ctx : κ) (key : String)
    (st st' : σ) (res : Response) (b : Map)
    (hd : Delivers p s ctx http.MethodDelete ("/" ++ s.c.Engine ++ "/data/" ++ key) Any.nil
      st res st')
    (hb : Decode res.Body = Except.ok b) (hs : res.StatusCode ≠ 204) :
    (s.Delete p ctx key st).1 = some (Error.unexpectedStatus res.StatusCode) := by
  have hreq := doReq_ok p s ctx http.MethodDelete ("/" ++ s.c.Engine ++ "/data/" ++ key) Any.nil
    st st' res b hd hb
  simp [h.Delete, hreq, hs]

/-- C6 as stated fails: a 204 response to `Set` with an empty body does not
yield the unexpected-status error; `Set` returns the transport error wrapping
the decode failure. -/
theorem Set_204_empty_body_is_transport_error :
    Delivers (answering ⟨204, Wire.empty⟩) ⟨exampleConfig⟩ () http.MethodPost
      ("/" ++ exampleConfig.Engine ++ "/data/" ++ "k")
      (Any.map [("data", Any.map [("a", Any.float64 Float64.one)])]) ()
      ⟨204, Wire.empty⟩ () ∧
    (h.Set (answering ⟨204, Wire.empty⟩) ⟨exampleConfig⟩ () "k"
      (some [("a", Any.float64 Float64.one)]) ()).1 =
      some (Error.failedToRequest (Error.failedToDecode Error.EOF)) ∧
    (h.Set (answering ⟨204, Wire.empty⟩) ⟨exampleConfig⟩ () "k"
      (some [("a", Any.float64 Float64.one)]) ()).1 ≠ some (Error.unexpectedStatus 204) :=
  ⟨⟨_, rfl, rfl, rfl⟩, rfl, by decide⟩

/-- C6, amended: for every key, record and response to `Set`: `Set` returns nil
only when the status is 200; when the response body decodes (to any map `b`,
whose contents are not looked at) a status of 200 gives nil and every other
status (204 included) gives the unexpected-status error carrying that status. -/
theorem Set_status_policy (p : Platform κ σ) (s : h) (ctx : κ) (key : String)
    (value : Option Map) (st st' : σ) (res : Response)
    (hd : Delivers p s ctx http.MethodPost ("/" ++ s.c.Engine ++ "/data/" ++ key)
      (Any.map [("data", ofMap value)]) st res st') :
    ((s.Set p ctx key value st).1 = none → res.StatusCode = 200) ∧
    ∀ b : Map, Decode res.Body = Except.ok b →
      (res.StatusCode = 200 → (s.Set p ctx key value st).1 = none) ∧
      (res.StatusCode ≠ 200 →
        (s.Set p ctx key value st).1 = some (Error.unexpectedStatus res.StatusCode) ∧
        kindOf (Error.unexpectedStatus res.StatusCode) = ErrorKind.unexpectedStatus) := by
  have hreq := doReq_of_delivers p s ctx http.MethodPost ("/" ++ s.c.Engine ++ "/data/" ++ key)
    (Any.map [("data", ofMap value)]) st st' res hd
  constructor
  · intro hnil
    cases hb : Decode res.Body with
    | error e => simp [h.Set, hreq, hb] at hnil
    | ok b =>
      by_contra hs
      simp [h.Set, hreq, hb, hs] at hnil
  · intro b hb
    constructor
    · intro hs
      simp [h.Set, hreq, hb, hs]
    · intro hs
      simp [h.Set, hreq, hb, hs, kindOf]

/-- C6 amended, at a 403 response with an object body: `Set` reports status 403. -/
theorem Set_status_policy_witness :
    (h.Set (answering ⟨403, Wire.json (Doc.object [("errors", Doc.array [])])⟩)
      ⟨exampleConfig⟩ () "k" (some [("a", Any.float64 Float64.one)]) ()).1 =
      some (Error.unexpectedStatus 403) :=
  (((Set_status_policy (answering ⟨403, Wire.json (Doc.object [("errors", Doc.array [])])⟩)
    ⟨exampleConfig⟩ () "k" (some [("a", Any.float64 Float64.one)]) () ()
    ⟨403, Wire.json (Doc.object [("errors", Doc.array [])])⟩ ⟨_, rfl, rfl, rfl⟩).2
    [("errors", Any.slice [])] rfl).2 (by decide)).1

/-- C10 as stated fails: a 503 response to `Ping` whose body is not JSON does
not yield the unexpected-status error; `Ping` returns the transport error
wrapping the decode failure. -/
theorem Ping_503_text_body_is_transport_error :
    Delivers (answering ⟨503, Wire.invalid "Service Unavailable"⟩) ⟨exampleConfig⟩ ()
      http.MethodGet "/sys/health" Any.nil () ⟨503, Wire.invalid "Service Unavailable"⟩ () ∧
    (h.Ping (answering ⟨503, Wire.invalid "Service Unavailable"⟩) ⟨exampleConfig⟩ () ()).1 =
      some (Error.failedToRequest (Error.failedToDecode (Error.SyntaxError "Service Unavailable"))) ∧
    (h.Ping (answering ⟨503, Wire.invalid "Service Unavailable"⟩) ⟨exampleConfig⟩ () ()).1 ≠
      some (Error.unexpectedStatus 503) :=
  ⟨answering_delivers _ _ _ _, rfl, by decide⟩

/-- C10, amended: for every response to `Ping`: `Ping` returns nil only when
the status is 200; when the response body decodes (to any map `b`, whose
contents are not interpreted) a status of 200 gives nil and every other status
gives the unexpected-status error carrying that status. -/
theorem Ping_status_policy (p : Platform κ σ) (s : h) (ctx : κ) (st st' : σ) (res : Response)
    (hd : Delivers p s ctx http.MethodGet "/sys/health" Any.nil st res st') :
    ((s.Ping p ctx st).1 = none → res.StatusCode = 200) ∧
    ∀ b : Map, Decode res.Body = Except.ok b →
      (res.StatusCode = 200 → (s.Ping p ctx st).1 = none) ∧
      (res.StatusCode ≠ 200 →
        (s.Ping p ctx st).1 = some (Error.unexpectedStatus res.StatusCode) ∧
        kindOf (Error.unexpectedStatus res.StatusCode) = ErrorKind.unexpectedStatus) := by
  have hreq := doReq_of_delivers p s ctx http.MethodGet "/sys/health" Any.nil st st' res hd
  constructor
  · intro hnil
    cases hb : Decode res.Body with
    | error e => simp [h.Ping, hreq, hb] at hnil
    | ok b =>
      by_contra hs
      simp [h.Ping, hreq, hb, hs] at hnil
  · intro b hb
    constructor
    · intro hs
      simp [h.Ping, hreq, hb, hs]
    · intro hs
      simp [h.Ping, hreq, hb, hs, kindOf]

/-- C10 amended, at a 200 response with an object body: `Ping` succeeds. -/
theorem Ping_status_policy_witness :
    (h.Ping (answering ⟨200, Wire.json (Doc.object [("sealed", Doc.bool true)])⟩)
      ⟨exampleConfig⟩ () ()).1 = none :=
  (((Ping_status_policy (answering ⟨200, Wire.json (Doc.object [("sealed", Doc.bool true)])⟩)
    ⟨exampleConfig⟩ () () () ⟨200, Wire.json (Doc.object [("sealed", Doc.bool true)])⟩
    (answering_delivers _ _ _ _)).2 [("sealed", Any.bool true)] rfl).1 rfl)

/-! ## Failure kinds of construction -/

/-- C8 as stated fails: a 502 mount-check response whose body is not JSON does
not make `New` fail with the unexpected-status error; `New` fails with the
transport error wrapping the decode failure. -/
theorem New_502_text_body_is_transport_error :
    Delivers (answering ⟨502, Wire.invalid "Bad Gateway"⟩) ⟨exampleConfig⟩ () http.MethodGet
      ("/sys/mounts/" ++ exampleConfig.Engine) Any.nil () ⟨502, Wire.invalid "Bad Gateway"⟩ () ∧
    (New (answering ⟨502, Wire.invalid "Bad Gateway"⟩) () exampleConfig ()).1 =
      (none, some (Error.failedToRequest (Error.failedToDecode (Error.SyntaxError "Bad Gateway")))) ∧
    (New (answering ⟨502, Wire.invalid "Bad Gateway"⟩) () exampleConfig ()).1 ≠
      (none, some (Error.unexpectedStatus 502)) :=
  ⟨answering_delivers _ _ _ _, rfl, by decide⟩

/-- C8, amended: for every mount-check response whose body decodes (to a map
`b`): when the status is not 200, whatever `b` says, `New` fails with the
unexpected-status error reporting that status, which is not
`ErrEngineUnsupported`; when the status is 200 and `b` is not the descriptor
of a KV version-2 mount (no `data` object, a `type` other than `"kv"`, no
`options` object or a `version` other than `"2"`), `New` fails with exactly
`ErrEngineUnsupported`. -/
theorem New_failure_kinds (p : Platform κ σ) (ctx : κ) (c : Config) (st st' : σ)
    (res : Response) (b : Map)
    (hd : Delivers p ⟨c⟩ ctx http.MethodGet ("/sys/mounts/" ++ c.Engine) Any.nil st res st')
    (hb : Decode res.Body = Except.ok b) :
    (res.StatusCode ≠ 200 →
      (New p ctx c st).1 = (none, some (Error.unexpectedStatus res.StatusCode)) ∧
      Error.unexpectedStatus res.StatusCode ≠ Error.ErrEngineUnsupported ∧
      kindOf (Error.unexpectedStatus res.StatusCode) = ErrorKind.unexpectedStatus) ∧
    (res.StatusCode = 200 →
      ((∀ d : Map, index b "data" ≠ Any.map d) ∨
        ∃ d : Map, index b "data" = Any.map d ∧
          (index d "type" ≠ Any.string "kv" ∨
            (∀ o : Map, index d "options" ≠ Any.map o) ∨
            ∃ o : Map, index d "options" = Any.map o ∧ index o "version" ≠ Any.string "2")) →
      (New p ctx c st).1 = (none, some Error.ErrEngineUnsupported)) := by
  obtain ⟨h1, _, h3⟩ := New_of_response p ctx c st st' res b hd hb
  constructor
  · intro hs
    exact ⟨h1 hs, by simp, rfl⟩
  · intro hs hbad
    apply h3 hs
    rintro ⟨d, hd1, ht, o, ho, hv⟩
    rcases hbad with hno | ⟨d', hd', hrest⟩
    · exact hno d hd1
    · have hdd : d' = d := by
        have := hd'.symm.trans hd1
        simpa using this
      subst hdd
      rcases hrest with hty | hopt | ⟨o', ho', hver⟩
      · exact hty ht
      · exact hopt o ho
      · have hoo : o' = o := by
          have := ho'.symm.trans ho
          simpa using this
        subst hoo
        exact hver hv

/-- C8 amended, at a 403 response carrying the descriptor of a KV version-2
mount: `New` reports status 403. -/
theorem New_failure_kinds_witness :
    (New (answering ⟨403, Wire.json kvMountDoc⟩) () exampleConfig ()).1 =
      (none, some (Error.unexpectedStatus 403)) :=
  ((New_failure_kinds (answering ⟨403, Wire.json kvMountDoc⟩) () exampleConfig () ()
    ⟨403, Wire.json kvMountDoc⟩ kvMountBody (answering_delivers _ _ _ _) rfl).1 (by decide)).1

/-! ## Undecodable response bodies -/

/-- C9: for every public operation and every response status: when the
response body does not decode (`Decode` fails with `e`, which it does on an
empty body, on bytes that are not JSON and on a JSON array, string or number),
the operation returns the error `failed to request: failed to decode response
body: e`, a transport error and not nil, `ErrKeyNotFound`,
`ErrEngineUnsupported` or a status error; in particular `Delete` on a 204
response with an empty body returns such an error. -/
theorem undecodable_body_is_transport_error (p : Platform κ σ) (ctx : κ) (s : h)
    (key : String) (value : Option Map) (st st' : σ) (res : Response) (e : Error)
    (hb : Decode res.Body = Except.error e) :
    (Delivers p s ctx http.MethodGet ("/sys/mounts/" ++ s.c.Engine) Any.nil st res st' →
      (New p ctx s.c st).1 = (none, some (Error.failedToRequest (Error.failedToDecode e)))) ∧
    (Delivers p s ctx http.MethodGet ("/" ++ s.c.Engine ++ "/data/" ++ key) Any.nil st res st' →
      (s.Get p ctx key st).1 = (none, some (Error.failedToRequest (Error.failedToDecode e)))) ∧
    (Delivers p s ctx http.MethodPost ("/" ++ s.c.Engine ++ "/data/" ++ key)
        (Any.map [("data", ofMap value)]) st res st' →
      (s.Set p ctx key value st).1 = some (Error.failedToRequest (Error.failedToDecode e))) ∧
    (Delivers p s ctx http.MethodDelete ("/" ++ s.c.Engine ++ "/data/" ++ key) Any.nil st res st' →
      (s.Delete p ctx key st).1 = some (Error.failedToRequest (Error.failedToDecode e))) ∧
    (Delivers p s ctx http.MethodGet "/sys/health" Any.nil st res st' →
      (s.Ping p ctx st).1 = some (Error.failedToRequest (Error.failedToDecode e))) ∧
    kindOf (Error.failedToRequest (Error.failedToDecode e)) = ErrorKind.transport ∧
    Decode Wire.empty = Except.error Error.EOF ∧
    (∀ raw : String, Decode (Wire.invalid raw) = Except.error (Error.SyntaxError raw)) ∧
    (∀ xs : List Doc, Decode (Wire.json (Doc.array xs)) =
      Except.error (Error.UnmarshalTypeError "array")) ∧
    (∀ t : String, Decode (Wire.json (Doc.string t)) =
      Except.error (Error.UnmarshalTypeError "string")) ∧
    (∀ n : Number, Decode (Wire.json (Doc.number n)) =
      Except.error (Error.UnmarshalTypeError "number")) := by
  refine ⟨?_, ?_, ?_, ?_, ?_, rfl, rfl, fun _ => rfl, fun _ => rfl, fun _ => rfl, fun _ => rfl⟩
  · intro hd
    simp [New, doReq_decode_error p ⟨s.c⟩ ctx _ _ _ st st' res e hd hb]
  · intro hd
    simp [h.Get, doReq_decode_error p s ctx _ _ _ st st' res e hd hb]
  · intro hd
    simp [h.Set, doReq_decode_error p s ctx _ _ _ st st' res e hd hb]
  · intro hd
    simp [h.Delete, doReq_decode_error p s ctx _ _ _ st st' res e hd hb]
  · intro hd
    simp [h.Ping, doReq_decode_error p s ctx _ _ _ st st' res e hd hb]

/-- C9, at a 204 response to `Delete` with an empty body: `Delete` returns the
transport error wrapping `EOF`. -/
theorem undecodable_body_is_transport_error_witness :
    Decode (Response.mk 204 Wire.empty).Body = Except.error Error.EOF ∧
    Delivers (answering ⟨204, Wire.empty⟩) ⟨exampleConfig⟩ () http.MethodDelete
      ("/" ++ exampleConfig.Engine ++ "/data/" ++ "k") Any.nil () ⟨204, Wire.empty⟩ () ∧
    (h.Delete (answering ⟨204, Wire.empty⟩) ⟨exampleConfig⟩ () "k" ()).1 =
      some (Error.failedToRequest (Error.failedToDecode Error.EOF)) :=
  ⟨rfl, answering_delivers _ _ _ _,
    (undecodable_body_is_transport_error (answering ⟨204, Wire.empty⟩) () ⟨exampleConfig⟩ "k" none
      () () ⟨204, Wire.empty⟩ Error.EOF rfl).2.2.2.1 (answering_delivers _ _ _ _)⟩

/-! ## Round trip -/

mutual
/-- A value that reads back has a document, and the document decodes to it. -/
theorem readsBack_sound (format : Float64 → Number) :
    ∀ v : Any, readsBack format v = true →
      ∃ d : Doc, Marshal format v = Except.ok d ∧ valueInterface d = Except.ok v
  | Any.nil, _ => ⟨Doc.null, rfl, rfl⟩
  | Any.bool b, _ => ⟨Doc.bool b, rfl, rfl⟩
  | Any.int64 _, hv => by simp [readsBack] at hv
  | Any.float64 f, hv => by
    refine ⟨Doc.number (format f), rfl, ?_⟩
    have hf : strconv.ParseFloat (format f) = some f := by simpa [readsBack] using hv
    simp [valueInterface, hf]
  | Any.unsupported, hv => by simp [readsBack] at hv
  | Any.string t, _ => ⟨Doc.string t, rfl, rfl⟩
  | Any.slice xs, hv => by
    have hxs : readsBackList format xs = true := by simpa [readsBack] using hv
    obtain ⟨ds, h1, h2⟩ := readsBackList_sound format xs hxs
    exact ⟨Doc.array ds, by simp [Marshal, h1], by simp [valueInterface, h2]⟩
  | Any.map m, hv => by
    have hm : readsBackMembers format m = true := by simpa [readsBack] using hv
    obtain ⟨ds, h1, h2⟩ := readsBackMembers_sound format m hm
    exact ⟨Doc.object ds, by simp [Marshal, h1], by simp [valueInterface, h2]⟩
/-- The elements of a slice that reads back have documents that decode to them. -/
theorem readsBackList_sound (format : Float64 → Number) :
    ∀ xs : List Any, readsBackList format xs = true →
      ∃ ds : List Doc, MarshalList format xs = Except.ok ds ∧ arrayInterface ds = Except.ok xs
  | [], _ => ⟨[], rfl, rfl⟩
  | x :: xs, hv => by
    have hboth : readsBack format x = true ∧ readsBackList format xs = true := by
      simpa [readsBackList] using hv
    obtain ⟨d, h1, h2⟩ := readsBack_sound format x hboth.1
    obtain ⟨ds, h3, h4⟩ := readsBackList_sound format xs hboth.2
    exact ⟨d :: ds, by simp [MarshalList, h1, h3], by simp [arrayInterface, h2, h4]⟩
/-- The values of a map that reads back have documents that decode to them. -/
theorem readsBackMembers_sound (format : Float64 → Number) :
    ∀ m : List (String × Any), readsBackMembers format m = true →
      ∃ ds : List (String × Doc),
        MarshalMembers format m = Except.ok ds ∧ objectInterface ds = Except.ok m
  | [], _ => ⟨[], rfl, rfl⟩
  | (k, x) :: xs, hv => by
    have hboth : readsBack format x = true ∧ readsBackMembers format xs = true := by
      simpa [readsBackMembers] using hv
    obtain ⟨d, h1, h2⟩ := readsBack_sound format x hboth.1
    obtain ⟨ds, h3, h4⟩ := readsBackMembers_sound format xs hboth.2
    exact ⟨(k, d) :: ds, by simp [MarshalMembers, h1, h3], by simp [objectInterface, h2, h4]⟩
end

theorem memoryBackend_conforming (postBody : Wire) (c : Config) (key : String) :
    Conforming (memoryBackend postBody) c key () () := by
  intro X st
  refine ⟨postBody, (c.Addr ++ "/v1" ++ ("/" ++ c.Engine ++ "/data/" ++ key), X) :: st, ?_, ?_⟩
  · simp [memoryBackend, wireRequest, dataMember, List.lookup]
  · refine ⟨(c.Addr ++ "/v1" ++ ("/" ++ c.Engine ++ "/data/" ++ key), X) :: st, ?_⟩
    have hne : ¬ http.MethodGet = http.MethodPost := by decide
    simp [memoryBackend, wireRequest, List.lookup, hne]

theorem memoryBackend_answers_post (members : List (String × Doc)) (m : Map)
    (hm : objectInterface members = Except.ok m) (c : Config) (key : String) :
    AnswersPostWithObject (memoryBackend (Wire.json (Doc.object members))) c key () := by
  intro X st st' res hdo
  refine ⟨m, ?_⟩
  simp [memoryBackend, wireRequest] at hdo
  rw [← hdo.1]
  exact hm

/-- C7 as stated fails, at three inputs.  (1) The in-memory backend that
answers a POST with status 200 and an empty body is conforming, and `Set`
against it returns the transport error wrapping the decode failure.  (2)
Against the in-memory backend that answers a POST with an empty object, `Set`
of the record whose `n` is the `int64` `2 ^ 53 + 1` succeeds and the `Get`
that follows returns the record whose `n` is the `float64` `2 ^ 53`: its
document holds `9007199254740992` where the document written holds
`9007199254740993`.  (3) For a key with a line feed the request cannot be
constructed, and `Set` returns the error wrapping that failure. -/
theorem round_trip_breaks_at_three_inputs :
    (Conforming (memoryBackend Wire.empty) exampleConfig "k" () () ∧
      (h.Set (memoryBackend Wire.empty) ⟨exampleConfig⟩ () "k"
        (some [("a", Any.float64 Float64.one)]) []).1 =
        some (Error.failedToRequest (Error.failedToDecode Error.EOF))) ∧
    (Conforming (memoryBackend (Wire.json (Doc.object []))) exampleConfig "k" () () ∧
      (h.Set (memoryBackend (Wire.json (Doc.object []))) ⟨exampleConfig⟩ () "k"
        (some bigIntRecord) []).1 = none ∧
      (h.Get (memoryBackend (Wire.json (Doc.object []))) ⟨exampleConfig⟩ () "k"
        (h.Set (memoryBackend (Wire.json (Doc.object []))) ⟨exampleConfig⟩ () "k"
          (some bigIntRecord) []).2).1 = (some bigIntRecordRead, none) ∧
      Marshal exactDecimal (Any.map bigIntRecord) =
        Except.ok (Doc.object [("n", Doc.number ⟨false, 9007199254740993, 0⟩)]) ∧
      Marshal exactDecimal (Any.map bigIntRecordRead) =
        Except.ok (Doc.object [("n", Doc.number ⟨false, 9007199254740992, 0⟩)])) ∧
    (Conforming (memoryBackend (Wire.json (Doc.object []))) exampleConfig "a\nb" () () ∧
      (h.Set (memoryBackend (Wire.json (Doc.object []))) ⟨exampleConfig⟩ () "a\nb"
        (some [("a", Any.float64 Float64.one)]) []).1 =
        some (Error.failedToRequest (Error.failedToCreate
          (Error.lib "net/url: invalid control character in URL")))) :=
  ⟨⟨memoryBackend_conforming _ _ _, rfl⟩,
    ⟨memoryBackend_conforming _ _ _, rfl, rfl, rfl, rfl⟩,
    ⟨memoryBackend_conforming _ _ _, rfl⟩⟩

/-- Against a conforming backend that answers the POST with a body that
decodes, when the two requests are constructed: if the record `R` encodes to
the object with members `ds` and that object decodes to `R'`, then `Set key R`
returns nil and the `Get key` that follows returns `R'`. -/
theorem Set_then_Get_returns_decoding (p : Platform κ σ) (s : h) (key : String) (ctx₁ ctx₂ : κ)
    (R R' : Map) (ds : List (String × Doc)) (st : σ)
    (hnew₁ : p.NewRequestWithContext ctx₁ http.MethodPost
      (s.c.Addr ++ "/v1" ++ ("/" ++ s.c.Engine ++ "/data/" ++ key)) = none)
    (hnew₂ : p.NewRequestWithContext ctx₂ http.MethodGet
      (s.c.Addr ++ "/v1" ++ ("/" ++ s.c.Engine ++ "/data/" ++ key)) = none)
    (hc : Conforming p s.c key ctx₁ ctx₂) (hp : AnswersPostWithObject p s.c key ctx₁)
    (hmar : MarshalMembers p.FormatFloat R = Except.ok ds)
    (hval : objectInterface ds = Except.ok R') :
    (s.Set p ctx₁ key (some R) st).1 = none ∧
    (s.Get p ctx₂ key (s.Set p ctx₁ key (some R) st).2).1 = (some R', none) := by
  obtain ⟨body, st', hpost, st'', hget⟩ := hc (Doc.object ds) st
  obtain ⟨m, hm⟩ := hp (Doc.object ds) st st' ⟨200, body⟩ hpost
  have henc : Encode p.FormatFloat (Any.map [("data", ofMap (some R))]) =
      Except.ok (Wire.json (Doc.object [("data", Doc.object ds)])) := by
    simp [Encode, Marshal, MarshalMembers, ofMap, hmar]
  have hset : s.doReq p ctx₁ http.MethodPost ("/" ++ s.c.Engine ++ "/data/" ++ key)
      (Any.map [("data", ofMap (some R))]) st = (Except.ok (⟨200, body⟩, m), st') :=
    doReq_ok p s ctx₁ _ _ _ st st' ⟨200, body⟩ m ⟨_, henc, hnew₁, hpost⟩ hm
  have hset1 : s.Set p ctx₁ key (some R) st = (none, st') := by
    simp [h.Set, hset]
  have hdec : Decode (Wire.json (Doc.object [("data", Doc.object [("data", Doc.object ds)])])) =
      Except.ok [("data", Any.map [("data", Any.map R')])] := by
    simp [Decode, objectInterface, valueInterface, hval]
  have hgetreq : s.doReq p ctx₂ http.MethodGet ("/" ++ s.c.Engine ++ "/data/" ++ key)
      Any.nil st' =
      (Except.ok (⟨200, Wire.json (Doc.object [("data", Doc.object [("data", Doc.object ds)])])⟩,
        [("data", Any.map [("data", Any.map R')])]), st'') :=
    doReq_ok p s ctx₂ _ _ _ st' st'' _ _ ⟨_, rfl, hnew₂, hget⟩ hdec
  rw [hset1]
  refine ⟨rfl, ?_⟩
  simp [h.Get, hgetreq, index, List.lookup, asMap]

/-- C7, amended: for every key and every record `R`, when the two requests are
constructed, against a conforming backend that answers the POST with a body
that decodes: if `R` encodes to a JSON object and that object decodes to `R'`
(every number as the nearest `float64`), `Set key R` returns nil and the
`Get key` that follows returns `R'` with a nil error; and for a record `R` in
decoded form (its values are `nil`, `bool`, `float64`, `string`, slices and
maps of these, each `float64` written with digits that parse back to it) the
`Get` returns exactly `R`. -/
theorem Set_then_Get_round_trip (p : Platform κ σ) (s : h) (key : String) (ctx₁ ctx₂ : κ)
    (R : Map) (st : σ)
    (hnew₁ : p.NewRequestWithContext ctx₁ http.MethodPost
      (s.c.Addr ++ "/v1" ++ ("/" ++ s.c.Engine ++ "/data/" ++ key)) = none)
    (hnew₂ : p.NewRequestWithContext ctx₂ http.MethodGet
      (s.c.Addr ++ "/v1" ++ ("/" ++ s.c.Engine ++ "/data/" ++ key)) = none)
    (hc : Conforming p s.c key ctx₁ ctx₂) (hp : AnswersPostWithObject p s.c key ctx₁) :
    (∀ (ds : List (String × Doc)) (R' : Map),
      MarshalMembers p.FormatFloat R = Except.ok ds → objectInterface ds = Except.ok R' →
      (s.Set p ctx₁ key (some R) st).1 = none ∧
      (s.Get p ctx₂ key (s.Set p ctx₁ key (some R) st).2).1 = (some R', none)) ∧
    (readsBack p.FormatFloat (Any.map R) = true →
      (s.Set p ctx₁ key (some R) st).1 = none ∧
      (s.Get p ctx₂ key (s.Set p ctx₁ key (some R) st).2).1 = (some R, none)) := by
  constructor
  · intro ds R' hmar hval
    exact Set_then_Get_returns_decoding p s key ctx₁ ctx₂ R R' ds st hnew₁ hnew₂ hc hp hmar hval
  · intro hR
    have hRm : readsBackMembers p.FormatFloat R = true := by simpa [readsBack] using hR
    obtain ⟨ds, hmar, hval⟩ := readsBackMembers_sound p.FormatFloat R hRm
    exact Set_then_Get_returns_decoding p s key ctx₁ ctx₂ R R ds st hnew₁ hnew₂ hc hp hmar hval

/-- C7 amended, against the in-memory backend that answers a POST with an
empty object: writing `exampleRecord` (a `float64`, a boolean and a string in
a slice) under `k` and reading `k` gives the record back. -/
theorem Set_then_Get_round_trip_witness :
    readsBack exactDecimal (Any.map exampleRecord) = true ∧
    Conforming (memoryBackend (Wire.json (Doc.object []))) exampleConfig "k" () () ∧
    AnswersPostWithObject (memoryBackend (Wire.json (Doc.object []))) exampleConfig "k" () ∧
    (h.Set (memoryBackend (Wire.json (Doc.object []))) ⟨exampleConfig⟩ () "k"
      (some exampleRecord) []).1 = none ∧
    (h.Get (memoryBackend (Wire.json (Doc.object []))) ⟨exampleConfig⟩ () "k"
      (h.Set (memoryBackend (Wire.json (Doc.object []))) ⟨exampleConfig⟩ () "k"
        (some exampleRecord) []).2).1 = (some exampleRecord, none) :=
  ⟨rfl, memoryBackend_conforming _ _ _, memoryBackend_answers_post [] [] rfl _ _,
    (Set_then_Get_round_trip (memoryBackend (Wire.json (Doc.object []))) ⟨exampleConfig⟩ "k" () ()
      exampleRecord [] rfl rfl (memoryBackend_conforming _ _ _)
      (memoryBackend_answers_post [] [] rfl _ _)).2 rfl⟩

end storage
